import Mathlib

/-!
Verification of the frame-resource rendering core of the castle demo
(`Project1/Lee_Shular_Castle.cpp`).

The C++ is shallowly embedded: machine integers become `Nat`/`Int` (with
explicit `% 2^16` where a narrowing conversion happens), float vector data
becomes `ℚ` triples, constant-buffer payloads become abstract 4×4 integer
matrices, and the D3D12 fence/ring protocol becomes an explicit state
machine over event traces.
-/

namespace CastleProof

/-- Source constant `const int gNumFrameResources = 3;` (line 26). -/
abbrev gNumFrameResources : Nat := 3

/-- A 4×4 constant-buffer matrix (`XMFLOAT4X4`); the entries themselves play
no numeric role in the claims, so they are abstracted to `ℤ`. -/
abbrev Mat4 := Matrix (Fin 4) (Fin 4) Int

/-- Payload type `struct ObjectConstants { XMFLOAT4X4 World; XMFLOAT4X4 TexTransform; }`
(the per-object constant-buffer payload written by `UpdateObjectCBs`). -/
structure ObjectConstants where
  World : Mat4
  TexTransform : Mat4

/-- The fields of `struct RenderItem` (lines 30–63) that take part in the
dirty-sweep of `UpdateObjectCBs`: the two transforms, the `int
NumFramesDirty` counter and the `UINT ObjCBIndex` constant-buffer slot. -/
structure RItem where
  World : Mat4
  TexTransform : Mat4
  NumFramesDirty : Int
  ObjCBIndex : Nat

/-- The payload computed for a dirty item (lines 529–531):
`XMStoreFloat4x4(&objConstants.World, XMMatrixTranspose(world))` and likewise
for the texture transform. -/
def objConstantsOf (e : RItem) : ObjectConstants :=
  { World := Matrix.transpose e.World
    TexTransform := Matrix.transpose e.TexTransform }

/-- The loop body of `CastleDesign::UpdateObjectCBs` (lines 513–537) for one
render item: if `NumFramesDirty > 0`, emit
`currObjectCB->CopyData(e->ObjCBIndex, objConstants)` and decrement the
counter; otherwise do nothing.  The second component records the `CopyData`
call (destination slot index and payload) performed for this item. -/
def updateObjectCB (e : RItem) : RItem × List (Nat × ObjectConstants) :=
  if 0 < e.NumFramesDirty then
    ({ e with NumFramesDirty := e.NumFramesDirty - 1 }, [(e.ObjCBIndex, objConstantsOf e)])
  else
    (e, [])

/-- Function `CastleDesign::UpdateObjectCBs` (lines 509–547): iterate the loop body
over `mAllRitems` in order, collecting the `CopyData` calls in the order they
are issued. -/
def updateObjectCBs : List RItem → List RItem × List (Nat × ObjectConstants)
  | [] => ([], [])
  | e :: rest =>
      let r := updateObjectCB e
      let rs := updateObjectCBs rest
      (r.1 :: rs.1, r.2 ++ rs.2)

/-- C3: on each call of `UpdateObjectCBs`, exactly the render items with
`NumFramesDirty > 0` have their `World` and `TexTransform` matrices
transposed and copied into the current object-constant buffer at offset
`ObjCBIndex`, and each such item's counter is decremented by one; items with
a non-positive counter are neither written nor changed. -/
theorem updateObjectCBs_dirty_sweep :
    ∀ items : List RItem,
      (updateObjectCBs items).2
        = (items.filter fun e => decide (0 < e.NumFramesDirty)).map
            (fun e => (e.ObjCBIndex, objConstantsOf e))
      ∧ (updateObjectCBs items).1
        = items.map fun e =>
            if 0 < e.NumFramesDirty then
              { e with NumFramesDirty := e.NumFramesDirty - 1 }
            else e := by
  intro items
  induction items with
  | nil => simp [updateObjectCBs]
  | cons e rest ih =>
      obtain ⟨ih1, ih2⟩ := ih
      by_cases h : 0 < e.NumFramesDirty
      · simp [updateObjectCBs, updateObjectCB, h, ih1, ih2]
      · simp [updateObjectCBs, updateObjectCB, h, ih1, ih2]

/-- The ring advance `mCurrFrameResourceIndex = (mCurrFrameResourceIndex + 1)
% gNumFrameResources` (line 270). -/
def advance (i : Fin gNumFrameResources) : Fin gNumFrameResources :=
  ⟨(i.val + 1) % gNumFrameResources, Nat.mod_lt _ (by decide)⟩

/-- The per-item view of one frame of the update pipeline: the current ring
index, the item's `NumFramesDirty` counter, and the entry at the item's
`ObjCBIndex` in each of the three frame resources' object-constant buffers
(`none` = never written). -/
structure ItemSync where
  frameIdx : Fin gNumFrameResources
  NumFramesDirty : Int
  slots : Fin gNumFrameResources → Option ObjectConstants

/-- One call of `CastleDesign::Update` (lines 264–291) restricted to a single
render item with world matrix `w` and texture transform `t`: advance the ring
index (line 270), then run the `UpdateObjectCBs` body for the item against
the new current frame resource (lines 517–537).  The second component lists
the ring slots written during this frame. -/
def stepItem (w t : Mat4) (s : ItemSync) : ItemSync × List (Fin gNumFrameResources) :=
  let i := advance s.frameIdx
  if 0 < s.NumFramesDirty then
    ({ frameIdx := i, NumFramesDirty := s.NumFramesDirty - 1,
       slots := Function.update s.slots i (some ⟨Matrix.transpose w, Matrix.transpose t⟩) }, [i])
  else
    ({ s with frameIdx := i }, [])

/-- Runs `n` consecutive frames of `CastleDesign::Update` for one item, collecting
the ring slots written (in order). -/
def runItem (w t : Mat4) (s : ItemSync) : Nat → ItemSync × List (Fin gNumFrameResources)
  | 0 => (s, [])
  | n + 1 =>
      let r := stepItem w t s
      let rs := runItem w t r.1 n
      (rs.1, r.2 ++ rs.2)

theorem runItem_succ (w t : Mat4) (s : ItemSync) (n : Nat) :
    runItem w t s (n + 1)
      = ((runItem w t (stepItem w t s).1 n).1,
         (stepItem w t s).2 ++ (runItem w t (stepItem w t s).1 n).2) := rfl

theorem runItem_add (w t : Mat4) (s : ItemSync) (a b : Nat) :
    runItem w t s (a + b)
      = ((runItem w t (runItem w t s a).1 b).1,
         (runItem w t s a).2 ++ (runItem w t (runItem w t s a).1 b).2) := by
  induction a generalizing s with
  | zero => simp [runItem]
  | succ a ih =>
      have hadd : a + 1 + b = (a + b) + 1 := by omega
      rw [hadd, runItem_succ, runItem_succ, ih]
      simp [runItem_succ, List.append_assoc]

theorem runItem_idle (w t : Mat4) :
    ∀ (n : Nat) (s : ItemSync), s.NumFramesDirty ≤ 0 →
      (runItem w t s n).2 = [] ∧ (runItem w t s n).1.NumFramesDirty = s.NumFramesDirty := by
  intro n
  induction n with
  | zero => intro s _; simp [runItem]
  | succ n ih =>
      intro s hs
      have hcond : ¬ 0 < s.NumFramesDirty := by omega
      have hstep : stepItem w t s = ({ s with frameIdx := advance s.frameIdx }, []) := by
        simp [stepItem, hcond]
      rw [runItem_succ, hstep]
      exact ih _ hs

/-- C2: if a render item's `NumFramesDirty` counter has just been (re-)armed
to the ring depth `gNumFrameResources = 3`, then over the next three
consecutive frame updates its current constant payload (the transposed
`World`/`TexTransform` pair) is written exactly once into each of the three
ring slots' object-constant buffers, and once the counter reaches `0` no
further writes for the item occur. -/
theorem dirty_rearm_propagation (w t : Mat4) (s : ItemSync)
    (h : s.NumFramesDirty = (gNumFrameResources : Int)) :
    (runItem w t s 3).2
        = [advance s.frameIdx, advance (advance s.frameIdx),
           advance (advance (advance s.frameIdx))]
      ∧ (runItem w t s 3).2.Nodup
      ∧ (∀ j : Fin gNumFrameResources, j ∈ (runItem w t s 3).2)
      ∧ (∀ j : Fin gNumFrameResources,
          (runItem w t s 3).1.slots j = some ⟨Matrix.transpose w, Matrix.transpose t⟩)
      ∧ (runItem w t s 3).1.NumFramesDirty = 0
      ∧ (∀ n : Nat, (runItem w t s (3 + n)).2 = (runItem w t s 3).2) := by
  obtain ⟨i, d, sl⟩ := s
  have h3 : d = 3 := by simpa using h
  subst h3
  have hrun :
      runItem w t ⟨i, (3 : Int), sl⟩ 3
        = (⟨advance (advance (advance i)), 0,
            Function.update
              (Function.update
                (Function.update sl (advance i)
                  (some ⟨Matrix.transpose w, Matrix.transpose t⟩))
                (advance (advance i)) (some ⟨Matrix.transpose w, Matrix.transpose t⟩))
              (advance (advance (advance i))) (some ⟨Matrix.transpose w, Matrix.transpose t⟩)⟩,
           [advance i, advance (advance i), advance (advance (advance i))]) := by
    norm_num [runItem_succ, runItem, stepItem]
  have hnodup : ∀ k : Fin gNumFrameResources,
      ([advance k, advance (advance k), advance (advance (advance k))]).Nodup := by decide
  have hmem : ∀ k j : Fin gNumFrameResources,
      j ∈ [advance k, advance (advance k), advance (advance (advance k))] := by decide
  have h12 : ∀ k : Fin gNumFrameResources, advance k ≠ advance (advance k) := by decide
  have h13 : ∀ k : Fin gNumFrameResources, advance k ≠ advance (advance (advance k)) := by decide
  have h23 : ∀ k : Fin gNumFrameResources,
      advance (advance k) ≠ advance (advance (advance k)) := by decide
  refine ⟨by rw [hrun], ?_, ?_, ?_, by rw [hrun], ?_⟩
  · rw [hrun]
    exact hnodup i
  · rw [hrun]
    exact hmem i
  · rw [hrun]
    intro j
    have hcases : ∀ k j : Fin gNumFrameResources,
        j = advance k ∨ j = advance (advance k) ∨ j = advance (advance (advance k)) := by decide
    rcases hcases i j with hj | hj | hj
    · subst hj
      simp [Function.update, (h12 i).symm, (h13 i).symm]
    · subst hj
      simp [Function.update, (h23 i).symm]
    · subst hj
      simp [Function.update]
  · intro n
    rw [runItem_add]
    have hdone : (runItem w t ⟨i, (3 : Int), sl⟩ 3).1.NumFramesDirty = 0 := by
      rw [hrun]
    have hidle := runItem_idle w t n (runItem w t ⟨i, (3 : Int), sl⟩ 3).1 (by omega)
    simp [hidle.1]

/-- Concrete instance of `dirty_rearm_propagation`: a freshly constructed item
(counter `3`, ring index `0`, no slot written yet). -/
def itemSync0 : ItemSync := ⟨0, 3, fun _ => none⟩

theorem dirty_rearm_propagation_witness :
    itemSync0.NumFramesDirty = (gNumFrameResources : Int)
      ∧ (runItem 0 0 itemSync0 3).1.NumFramesDirty = 0
      ∧ (∀ j : Fin gNumFrameResources,
          (runItem 0 0 itemSync0 3).1.slots j
            = some ⟨Matrix.transpose 0, Matrix.transpose 0⟩) :=
  ⟨rfl, (dirty_rearm_propagation 0 0 itemSync0 rfl).2.2.2.2.1,
    (dirty_rearm_propagation 0 0 itemSync0 rfl).2.2.2.1⟩

/-- The synchronization state shared by `CastleDesign::Update` and
`CastleDesign::Draw`: the current ring index `mCurrFrameResourceIndex`, each
frame resource's recorded `Fence` value, the global counter `mCurrentFence`,
and the last value of `mFence->GetCompletedValue()` observed by the CPU. -/
structure FrameSync where
  curr : Fin gNumFrameResources
  slotFence : Fin gNumFrameResources → Nat
  currentFence : Nat
  completed : Nat

/-- Initial state.  Modelled from the spec: `FrameResource.h` and `d3dApp.h`
are not under `src/`; per the spec's slot state machine every slot starts
`Idle (never submitted)`, identified by a recorded fence value of `0`, and
the fence is a monotonically increasing completion counter starting at `0`. -/
def initFrame : FrameSync :=
  { curr := 0, slotFence := fun _ => 0, currentFence := 0, completed := 0 }

/-- One observable step of the frame loop: an `update` (one call of
`CastleDesign::Update`, carrying the GPU completion value the CPU observes
once its fence wait returns) or a `draw` (one call of `CastleDesign::Draw`,
which submits and signals). -/
inductive FrameEvent where
  | update (completedValue : Nat)
  | draw

/-- State change of one event.
`update c`: lines 270–281 — advance the ring index, then (after the fence
wait, if any) the observed completed value is `c`.
`draw`: lines 362–367 — `mCurrFrameResource->Fence = ++mCurrentFence;` then
`mCommandQueue->Signal(mFence.Get(), mCurrentFence);`: the incremented
counter is recorded into the current slot before it is signaled. -/
def stepFrame (s : FrameSync) : FrameEvent → FrameSync
  | .update c => { s with curr := advance s.curr, completed := c }
  | .draw =>
      { s with currentFence := s.currentFence + 1,
               slotFence := Function.update s.slotFence s.curr (s.currentFence + 1) }

/-- Admissibility of one event.
For `update c`: the fence guard of lines 275–281 — `if (Fence != 0 &&
GetCompletedValue() < Fence) { SetEventOnCompletion; WaitForSingleObject }` —
lets the CPU proceed to the constant-buffer writes only once the observed
completed value `c` satisfies `Fence = 0 ∨ Fence ≤ c`; moreover `c` is
GPU-monotone (`completed ≤ c`) and never exceeds the last signaled value
(`c ≤ currentFence`), the fence being a monotonically increasing counter the
GPU signals (spec glossary).  `draw` is always admissible. -/
def okFrame (s : FrameSync) : FrameEvent → Bool
  | .update c =>
      decide (s.completed ≤ c) && decide (c ≤ s.currentFence)
        && (decide (s.slotFence (advance s.curr) = 0)
            || decide (s.slotFence (advance s.curr) ≤ c))
  | .draw => true

/-- Run a trace of frame events from the initial state. -/
def runFrame (es : List FrameEvent) : FrameSync :=
  es.foldl stepFrame initFrame

/-- Every event of the trace is admissible in the state it executes in. -/
def validFrom (s : FrameSync) : List FrameEvent → Bool
  | [] => true
  | e :: es => okFrame s e && validFrom (stepFrame s e) es

def validTrace (es : List FrameEvent) : Bool :=
  validFrom initFrame es

def countDraws (es : List FrameEvent) : Nat :=
  es.countP fun e => match e with | .draw => true | .update _ => false

theorem validFrom_append (s : FrameSync) (es fs : List FrameEvent) :
    validFrom s (es ++ fs)
      = (validFrom s es && validFrom (es.foldl stepFrame s) fs) := by
  induction es generalizing s with
  | nil => simp [validFrom]
  | cons e es ih => simp [validFrom, ih, Bool.and_assoc]

theorem foldl_stepFrame_currentFence (es : List FrameEvent) (s : FrameSync) :
    (es.foldl stepFrame s).currentFence = s.currentFence + countDraws es := by
  induction es generalizing s with
  | nil => simp [countDraws]
  | cons e es ih =>
      cases e with
      | update c => simp [stepFrame, ih, countDraws, List.countP_cons]
      | draw =>
          simp [stepFrame, ih, countDraws, List.countP_cons]
          omega

theorem foldl_stepFrame_inv (es : List FrameEvent) (s : FrameSync)
    (hv : validFrom s es = true)
    (hf : ∀ j, s.slotFence j ≤ s.currentFence)
    (hc : s.completed ≤ s.currentFence) :
    (∀ j, (es.foldl stepFrame s).slotFence j ≤ (es.foldl stepFrame s).currentFence)
      ∧ (es.foldl stepFrame s).completed ≤ (es.foldl stepFrame s).currentFence := by
  induction es generalizing s with
  | nil => exact ⟨hf, hc⟩
  | cons e es ih =>
      have hv1 : okFrame s e = true ∧ validFrom (stepFrame s e) es = true := by
        simpa [validFrom, Bool.and_eq_true] using hv
      cases e with
      | update c =>
          have hok := hv1.1
          simp only [okFrame, Bool.and_eq_true, Bool.or_eq_true, decide_eq_true_eq] at hok
          refine ih (stepFrame s (.update c)) hv1.2 ?_ ?_
          · intro j; simpa [stepFrame] using hf j
          · simpa [stepFrame] using hok.1.2
      | draw =>
          refine ih (stepFrame s .draw) hv1.2 ?_ ?_
          · intro j
            by_cases hj : j = s.curr
            · subst hj; simp [stepFrame, Function.update]
            · simp only [stepFrame]
              rw [Function.update_noteq hj]
              exact Nat.le_succ_of_le (hf j)
          · simp only [stepFrame]
            exact Nat.le_succ_of_le hc

/-- C1: along every admissible trace of the frame loop:
(1) `mCurrentFence` counts the submissions, so each `Draw` records the
strictly increasing value `currentFence + 1` into its slot before signaling;
(2) no slot's recorded fence ever exceeds the global counter;
(3) whenever the CPU resumes writing a slot's upload buffers (i.e. right
after an admissible `update` step), the slot either was never submitted
(recorded fence `0`) or the observed completed value has reached its
recorded fence — so no slot is reused while GPU work that referenced it is
unretired;
(4) the fence value a `draw` records into its slot strictly exceeds every
previously recorded slot fence. -/
theorem frame_ring_fence_protocol (es : List FrameEvent) (hv : validTrace es = true) :
    (runFrame es).currentFence = countDraws es
      ∧ (∀ j, (runFrame es).slotFence j ≤ (runFrame es).currentFence)
      ∧ (∀ c, validTrace (es ++ [FrameEvent.update c]) = true →
          (runFrame (es ++ [FrameEvent.update c])).slotFence
              (runFrame (es ++ [FrameEvent.update c])).curr = 0
            ∨ (runFrame (es ++ [FrameEvent.update c])).slotFence
                (runFrame (es ++ [FrameEvent.update c])).curr
                ≤ (runFrame (es ++ [FrameEvent.update c])).completed)
      ∧ (∀ j, (runFrame es).slotFence j
            < (runFrame (es ++ [FrameEvent.draw])).slotFence ((runFrame es).curr)) := by
  have hinv := foldl_stepFrame_inv es initFrame hv
    (by intro j; simp [initFrame]) (by simp [initFrame])
  refine ⟨?_, hinv.1, ?_, ?_⟩
  · have := foldl_stepFrame_currentFence es initFrame
    simpa [runFrame, initFrame] using this
  · intro c hvc
    have hsplit : validFrom initFrame es = true
        ∧ validFrom (runFrame es) [FrameEvent.update c] = true := by
      simpa [validTrace, runFrame, validFrom_append, Bool.and_eq_true] using hvc
    have hok : okFrame (runFrame es) (.update c) = true := by
      have := hsplit.2
      simpa [validFrom, Bool.and_eq_true] using this
    simp only [okFrame, Bool.and_eq_true, Bool.or_eq_true, decide_eq_true_eq] at hok
    have hrun : runFrame (es ++ [FrameEvent.update c])
        = stepFrame (runFrame es) (.update c) := by
      simp [runFrame, List.foldl_append, validFrom]
    rw [hrun]
    rcases hok.2 with h0 | hle
    · left; simpa [stepFrame] using h0
    · right; simpa [stepFrame] using hle
  · intro j
    have hrun : runFrame (es ++ [FrameEvent.draw])
        = stepFrame (runFrame es) .draw := by
      simp [runFrame, List.foldl_append]
    rw [hrun]
    simp only [stepFrame]
    rw [Function.update_same]
    exact Nat.lt_succ_of_le (hinv.1 j)

theorem frame_ring_fence_protocol_witness :
    (runFrame [FrameEvent.update 0]).currentFence = countDraws [FrameEvent.update 0]
      ∧ (∀ j, (runFrame [FrameEvent.update 0]).slotFence j
            ≤ (runFrame [FrameEvent.update 0]).currentFence)
      ∧ (∀ c, validTrace ([FrameEvent.update 0] ++ [FrameEvent.update c]) = true →
          (runFrame ([FrameEvent.update 0] ++ [FrameEvent.update c])).slotFence
              (runFrame ([FrameEvent.update 0] ++ [FrameEvent.update c])).curr = 0
            ∨ (runFrame ([FrameEvent.update 0] ++ [FrameEvent.update c])).slotFence
                (runFrame ([FrameEvent.update 0] ++ [FrameEvent.update c])).curr
                ≤ (runFrame ([FrameEvent.update 0] ++ [FrameEvent.update c])).completed)
      ∧ (∀ j, (runFrame [FrameEvent.update 0]).slotFence j
            < (runFrame ([FrameEvent.update 0] ++ [FrameEvent.draw])).slotFence
                ((runFrame [FrameEvent.update 0]).curr)) :=
  frame_ring_fence_protocol [FrameEvent.update 0] (by decide)

/-- A 3-component float vector (`XMFLOAT3`), embedded over `ℚ`. -/
structure V3 where
  x : ℚ
  y : ℚ
  z : ℚ
deriving DecidableEq

/-- Componentwise minimum (`XMVectorMin`). -/
def vmin (a b : V3) : V3 := ⟨min a.x b.x, min a.y b.y, min a.z b.z⟩

/-- Componentwise maximum (`XMVectorMax`). -/
def vmax (a b : V3) : V3 := ⟨max a.x b.x, max a.y b.y, max a.z b.z⟩

/-- Type `DirectX::BoundingBox`: an axis-aligned box given by center and extents. -/
structure BoundingBox where
  Center : V3
  Extents : V3
deriving DecidableEq

/-- Type `GeometryGenerator::MeshData`, restricted to the fields
`BuildShapeGeometry` consumes: the vertex positions and the 32-bit index
list. -/
structure MeshData where
  Vertices : List V3
  Indices32 : List Nat
deriving DecidableEq

/-- Modelled from the spec: `GeometryGenerator.h` is not under `src/`;
`MeshData::GetIndices16` narrows each 32-bit index to a 16-bit index — the
spec's "silently truncated" failure mode when an index does not fit. -/
def MeshData.getIndices16 (d : MeshData) : List Nat :=
  d.Indices32.map (fun i => i % 65536)

/-- The ten procedurally generated meshes of `BuildShapeGeometry`
(lines 1114–1134), in their fixed concatenation order. -/
structure ShapeMeshes where
  box : MeshData
  grid : MeshData
  sphere : MeshData
  cylinder : MeshData
  pyramid : MeshData
  cone : MeshData
  prism : MeshData
  diamond : MeshData
  wedge : MeshData
  torus : MeshData

/-- The meshes in concatenation order (box, grid, sphere, cylinder, pyramid,
cone, prism, diamond, wedge, torus). -/
def meshList (m : ShapeMeshes) : List MeshData :=
  [m.box, m.grid, m.sphere, m.cylinder, m.pyramid,
   m.cone, m.prism, m.diamond, m.wedge, m.torus]

/- Cached vertex offsets into the concatenated vertex buffer
(lines 1148–1166), each defined — exactly as in the source — as the previous
offset plus the previous mesh's vertex count. -/

def boxVertexOffset (_ : ShapeMeshes) : Nat := 0

def gridVertexOffset (m : ShapeMeshes) : Nat := m.box.Vertices.length

def sphereVertexOffset (m : ShapeMeshes) : Nat :=
  gridVertexOffset m + m.grid.Vertices.length

def cylinderVertexOffset (m : ShapeMeshes) : Nat :=
  sphereVertexOffset m + m.sphere.Vertices.length

def pyramidVertexOffset (m : ShapeMeshes) : Nat :=
  cylinderVertexOffset m + m.cylinder.Vertices.length

def coneVertexOffset (m : ShapeMeshes) : Nat :=
  pyramidVertexOffset m + m.pyramid.Vertices.length

def prismVertexOffset (m : ShapeMeshes) : Nat :=
  coneVertexOffset m + m.cone.Vertices.length

def diamondVertexOffset (m : ShapeMeshes) : Nat :=
  prismVertexOffset m + m.prism.Vertices.length

def wedgeVertexOffset (m : ShapeMeshes) : Nat :=
  diamondVertexOffset m + m.diamond.Vertices.length

def torusVertexOffset (m : ShapeMeshes) : Nat :=
  wedgeVertexOffset m + m.wedge.Vertices.length

/- Cached start indices into the concatenated index buffer
(lines 1170–1188). -/

def boxIndexOffset (_ : ShapeMeshes) : Nat := 0

def gridIndexOffset (m : ShapeMeshes) : Nat := m.box.Indices32.length

def sphereIndexOffset (m : ShapeMeshes) : Nat :=
  gridIndexOffset m + m.grid.Indices32.length

def cylinderIndexOffset (m : ShapeMeshes) : Nat :=
  sphereIndexOffset m + m.sphere.Indices32.length

def pyramidIndexOffset (m : ShapeMeshes) : Nat :=
  cylinderIndexOffset m + m.cylinder.Indices32.length

def coneIndexOffset (m : ShapeMeshes) : Nat :=
  pyramidIndexOffset m + m.pyramid.Indices32.length

def prismIndexOffset (m : ShapeMeshes) : Nat :=
  coneIndexOffset m + m.cone.Indices32.length

def diamondIndexOffset (m : ShapeMeshes) : Nat :=
  prismIndexOffset m + m.prism.Indices32.length

def wedgeIndexOffset (m : ShapeMeshes) : Nat :=
  diamondIndexOffset m + m.diamond.Indices32.length

def torusIndexOffset (m : ShapeMeshes) : Nat :=
  wedgeIndexOffset m + m.wedge.Indices32.length

/-- Source value `totalVertexCount` (lines 1303–1323): the ten vertex counts added in
source order. -/
def totalVertexCount (m : ShapeMeshes) : Nat :=
  m.box.Vertices.length + m.grid.Vertices.length + m.sphere.Vertices.length
    + m.cylinder.Vertices.length + m.pyramid.Vertices.length
    + m.cone.Vertices.length + m.prism.Vertices.length
    + m.diamond.Vertices.length + m.wedge.Vertices.length
    + m.torus.Vertices.length

/-- The concatenated 16-bit index buffer (lines 1499–1519): the ten
`GetIndices16()` lists appended in concatenation order. -/
def shapeGeometryIndices (m : ShapeMeshes) : List Nat :=
  m.box.getIndices16 ++ m.grid.getIndices16 ++ m.sphere.getIndices16
    ++ m.cylinder.getIndices16 ++ m.pyramid.getIndices16
    ++ m.cone.getIndices16 ++ m.prism.getIndices16
    ++ m.diamond.getIndices16 ++ m.wedge.getIndices16 ++ m.torus.getIndices16

/-- One step of the running min/max accumulation (lines 1344–1347):
`vMin = XMVectorMin(vMin, P); vMax = XMVectorMax(vMax, P)`.  The source
initializes `vMin`/`vMax` to `(+MathHelper::Infinity, …)` and
`(-MathHelper::Infinity, …)` (lines 1329–1333); those infinite sentinels are
modelled by the empty accumulator `none`. -/
def updMinMax (acc : Option (V3 × V3)) (p : V3) : Option (V3 × V3) :=
  match acc with
  | none => some (p, p)
  | some (lo, hi) => some (vmin lo p, vmax hi p)

/-- Fold the running min/max over one mesh's vertex positions, continuing
from the accumulator left by the previous meshes. -/
def scanVertices (acc : Option (V3 × V3)) (vs : List V3) : Option (V3 × V3) :=
  vs.foldl updMinMax acc

/-- Turn the accumulated min/max corners into a `BoundingBox`
(lines 1350–1351): `Center = 0.5*(vMin+vMax)`, `Extents = 0.5*(vMax-vMin)`. -/
def boundsFrom : Option (V3 × V3) → Option BoundingBox
  | none => none
  | some (lo, hi) =>
      some ⟨⟨(lo.x + hi.x) / 2, (lo.y + hi.y) / 2, (lo.z + hi.z) / 2⟩,
            ⟨(hi.x - lo.x) / 2, (hi.y - lo.y) / 2, (hi.z - lo.z) / 2⟩⟩

/- The accumulator state after each mesh's vertex loop (lines 1337–1497).
Crucially, the source never resets `vMin`/`vMax` between the per-mesh loops:
each scan continues from the previous accumulator. -/

def boxScan (m : ShapeMeshes) : Option (V3 × V3) :=
  scanVertices none m.box.Vertices

def gridScan (m : ShapeMeshes) : Option (V3 × V3) :=
  scanVertices (boxScan m) m.grid.Vertices

def sphereScan (m : ShapeMeshes) : Option (V3 × V3) :=
  scanVertices (gridScan m) m.sphere.Vertices

def cylinderScan (m : ShapeMeshes) : Option (V3 × V3) :=
  scanVertices (sphereScan m) m.cylinder.Vertices

def pyramidScan (m : ShapeMeshes) : Option (V3 × V3) :=
  scanVertices (cylinderScan m) m.pyramid.Vertices

def coneScan (m : ShapeMeshes) : Option (V3 × V3) :=
  scanVertices (pyramidScan m) m.cone.Vertices

def prismScan (m : ShapeMeshes) : Option (V3 × V3) :=
  scanVertices (coneScan m) m.prism.Vertices

def diamondScan (m : ShapeMeshes) : Option (V3 × V3) :=
  scanVertices (prismScan m) m.diamond.Vertices

def wedgeScan (m : ShapeMeshes) : Option (V3 × V3) :=
  scanVertices (diamondScan m) m.wedge.Vertices

def torusScan (m : ShapeMeshes) : Option (V3 × V3) :=
  scanVertices (wedgeScan m) m.torus.Vertices

/- The bounding boxes stored into the sub-mesh descriptors
(`boxSubmesh.Bounds = boxbounds;` etc., lines 1349–1497). -/

def boxSubmeshBounds (m : ShapeMeshes) : Option BoundingBox := boundsFrom (boxScan m)

def gridSubmeshBounds (m : ShapeMeshes) : Option BoundingBox := boundsFrom (gridScan m)

def sphereSubmeshBounds (m : ShapeMeshes) : Option BoundingBox := boundsFrom (sphereScan m)

def cylinderSubmeshBounds (m : ShapeMeshes) : Option BoundingBox := boundsFrom (cylinderScan m)

def pyramidSubmeshBounds (m : ShapeMeshes) : Option BoundingBox := boundsFrom (pyramidScan m)

def coneSubmeshBounds (m : ShapeMeshes) : Option BoundingBox := boundsFrom (coneScan m)

def prismSubmeshBounds (m : ShapeMeshes) : Option BoundingBox := boundsFrom (prismScan m)

def diamondSubmeshBounds (m : ShapeMeshes) : Option BoundingBox := boundsFrom (diamondScan m)

def wedgeSubmeshBounds (m : ShapeMeshes) : Option BoundingBox := boundsFrom (wedgeScan m)

def torusSubmeshBounds (m : ShapeMeshes) : Option BoundingBox := boundsFrom (torusScan m)

/-- The bounding box the spec prescribes for a sub-mesh, written from the
spec's words for comparison with the stored bounds: "an object-space bounding
box per sub-mesh computed as the min/max corner of that sub-mesh's vertex
positions only (not the whole batch)". -/
def submeshOwnBounds (d : MeshData) : Option BoundingBox :=
  boundsFrom (scanVertices none d.Vertices)

/-- Modelled from the spec: `GeometryGenerator.cpp` is not under `src/`.  The
spec's bounding-box test fixes "a unit box centered at origin"
(`CreateBox(1.0f, 1.0f, 1.0f, 0)`, line 1114) whose vertex extrema are ±0.5
on every axis; the eight corners realize those extrema, and only the vertex
positions enter the bounds computation. -/
def unitBoxMesh : MeshData :=
  { Vertices :=
      [⟨-(1/2), -(1/2), -(1/2)⟩, ⟨1/2, -(1/2), -(1/2)⟩,
       ⟨-(1/2), 1/2, -(1/2)⟩, ⟨1/2, 1/2, -(1/2)⟩,
       ⟨-(1/2), -(1/2), 1/2⟩, ⟨1/2, -(1/2), 1/2⟩,
       ⟨-(1/2), 1/2, 1/2⟩, ⟨1/2, 1/2, 1/2⟩]
    Indices32 := [0, 1, 2] }

/-- Modelled from the spec: `CreateGrid(1.0f, 1.0f, 41, 41)` (line 1116)
builds the flat ground grid — a 1×1 square in the xz-plane (y = 0) — whose
four corners realize its extrema. -/
def flatGridMesh : MeshData :=
  { Vertices :=
      [⟨-(1/2), 0, -(1/2)⟩, ⟨1/2, 0, -(1/2)⟩, ⟨-(1/2), 0, 1/2⟩, ⟨1/2, 0, 1/2⟩]
    Indices32 := [0, 1, 2] }

/-- A one-vertex placeholder mesh for batch positions whose data does not
enter the computation under scrutiny. -/
def dotMesh : MeshData := { Vertices := [⟨0, 0, 0⟩], Indices32 := [0] }

/-- A concrete batch realizing the spec's bounding-box test scenario: the
unit box first, then the flat ground grid, then placeholders. -/
def castleMeshes : ShapeMeshes :=
  ⟨unitBoxMesh, flatGridMesh, dotMesh, dotMesh, dotMesh,
   dotMesh, dotMesh, dotMesh, dotMesh, dotMesh⟩

/-- Sum of the vertex counts of the meshes strictly before position `k`. -/
def vertexCountsBefore (m : ShapeMeshes) (k : Nat) : Nat :=
  (((meshList m).take k).map fun d => d.Vertices.length).sum

/-- Sum of the index counts of the meshes strictly before position `k`. -/
def indexCountsBefore (m : ShapeMeshes) (k : Nat) : Nat :=
  (((meshList m).take k).map fun d => d.Indices32.length).sum

/-- The mesh at position `j` of the concatenation order. -/
def meshAt (m : ShapeMeshes) (j : Fin 10) : MeshData :=
  (meshList m).get ⟨j.val, by simp [meshList]⟩

/-- Modelled from the spec: `Waves.h` is not under `src/`; the wave simulator
is an `m×n` height-field grid, so `Waves::VertexCount()` is `m * n`. -/
def wavesVertexCount (mRows nCols : Nat) : Nat := mRows * nCols

/-- The quad index loop of `BuildWavesGeometry` (lines 1058–1077): six
indices per quad, written into a `std::vector<std::uint16_t>` (the narrowing
store is the `% 65536`). -/
def wavesIndices (mRows nCols : Nat) : List Nat :=
  (List.range (mRows - 1)).flatMap fun i =>
    (List.range (nCols - 1)).flatMap fun j =>
      [(i * nCols + j) % 65536, (i * nCols + j + 1) % 65536,
       ((i + 1) * nCols + j) % 65536, ((i + 1) * nCols + j) % 65536,
       (i * nCols + j + 1) % 65536, ((i + 1) * nCols + j + 1) % 65536]

/-- Function `BuildWavesGeometry` (lines 1053–1077) guarded by its defensive
assertion `assert(mWaves->VertexCount() < 0x0000ffff);` (line 1056): the
assertion firing is modelled as `none`. -/
def buildWavesGeometryIndices (mRows nCols : Nat) : Option (List Nat) :=
  if wavesVertexCount mRows nCols < 65535 then some (wavesIndices mRows nCols) else none

/-- A batch whose total vertex count reaches the 16-bit index range: the box
mesh carries 65537 vertices and one 32-bit index referencing vertex 65536. -/
def hugeBoxMesh : MeshData :=
  { Vertices := List.replicate 65537 ⟨0, 0, 0⟩, Indices32 := [65536] }

def oversizedMeshes : ShapeMeshes :=
  ⟨hugeBoxMesh, dotMesh, dotMesh, dotMesh, dotMesh,
   dotMesh, dotMesh, dotMesh, dotMesh, dotMesh⟩

/-- A minimal well-formed batch (each mesh: one vertex, one index). -/
def tinyMeshes : ShapeMeshes :=
  ⟨dotMesh, dotMesh, dotMesh, dotMesh, dotMesh,
   dotMesh, dotMesh, dotMesh, dotMesh, dotMesh⟩

/-- C5 counterexample: in the batch realizing the spec's bounding-box test,
the bounds stored for the grid sub-mesh are NOT the min/max box of the
grid's own vertices — the running `vMin`/`vMax` still contain the box mesh's
vertices (the y-extent comes out `1/2` instead of `0`). -/
theorem grid_bounds_not_own :
    gridSubmeshBounds castleMeshes ≠ submeshOwnBounds castleMeshes.grid := by
  norm_num [gridSubmeshBounds, gridScan, boxScan, scanVertices, updMinMax,
    vmin, vmax, boundsFrom, submeshOwnBounds, castleMeshes, unitBoxMesh,
    flatGridMesh, min_def, max_def]

/-- C5 amended: each sub-mesh's stored bounding box is the min/max box of
its own vertices TOGETHER WITH the vertices of every earlier mesh of the
batch (the running min/max is never reset); only the first sub-mesh (the
box) gets its own-vertices box, and for the spec's unit box the stored
center is `(0,0,0)` with extents `(1/2,1/2,1/2)`. -/
theorem shape_bounds_cumulative (m : ShapeMeshes) :
    boxSubmeshBounds m = submeshOwnBounds m.box
      ∧ gridSubmeshBounds m
          = boundsFrom (scanVertices none (m.box.Vertices ++ m.grid.Vertices))
      ∧ sphereSubmeshBounds m
          = boundsFrom (scanVertices none
              (m.box.Vertices ++ m.grid.Vertices ++ m.sphere.Vertices))
      ∧ cylinderSubmeshBounds m
          = boundsFrom (scanVertices none
              (m.box.Vertices ++ m.grid.Vertices ++ m.sphere.Vertices
                ++ m.cylinder.Vertices))
      ∧ pyramidSubmeshBounds m
          = boundsFrom (scanVertices none
              (m.box.Vertices ++ m.grid.Vertices ++ m.sphere.Vertices
                ++ m.cylinder.Vertices ++ m.pyramid.Vertices))
      ∧ coneSubmeshBounds m
          = boundsFrom (scanVertices none
              (m.box.Vertices ++ m.grid.Vertices ++ m.sphere.Vertices
                ++ m.cylinder.Vertices ++ m.pyramid.Vertices ++ m.cone.Vertices))
      ∧ prismSubmeshBounds m
          = boundsFrom (scanVertices none
              (m.box.Vertices ++ m.grid.Vertices ++ m.sphere.Vertices
                ++ m.cylinder.Vertices ++ m.pyramid.Vertices ++ m.cone.Vertices
                ++ m.prism.Vertices))
      ∧ diamondSubmeshBounds m
          = boundsFrom (scanVertices none
              (m.box.Vertices ++ m.grid.Vertices ++ m.sphere.Vertices
                ++ m.cylinder.Vertices ++ m.pyramid.Vertices ++ m.cone.Vertices
                ++ m.prism.Vertices ++ m.diamond.Vertices))
      ∧ wedgeSubmeshBounds m
          = boundsFrom (scanVertices none
              (m.box.Vertices ++ m.grid.Vertices ++ m.sphere.Vertices
                ++ m.cylinder.Vertices ++ m.pyramid.Vertices ++ m.cone.Vertices
                ++ m.prism.Vertices ++ m.diamond.Vertices ++ m.wedge.Vertices))
      ∧ torusSubmeshBounds m
          = boundsFrom (scanVertices none
              (m.box.Vertices ++ m.grid.Vertices ++ m.sphere.Vertices
                ++ m.cylinder.Vertices ++ m.pyramid.Vertices ++ m.cone.Vertices
                ++ m.prism.Vertices ++ m.diamond.Vertices ++ m.wedge.Vertices
                ++ m.torus.Vertices))
      ∧ boxSubmeshBounds castleMeshes
          = some ⟨⟨0, 0, 0⟩, ⟨1/2, 1/2, 1/2⟩⟩ := by
  refine ⟨rfl, ?_, ?_, ?_, ?_, ?_, ?_, ?_, ?_, ?_,
    by norm_num [boxSubmeshBounds, boxScan, scanVertices, updMinMax, vmin,
      vmax, boundsFrom, castleMeshes, unitBoxMesh, min_def, max_def]⟩
  all_goals
    simp [boxSubmeshBounds, gridSubmeshBounds, sphereSubmeshBounds,
      cylinderSubmeshBounds, pyramidSubmeshBounds, coneSubmeshBounds,
      prismSubmeshBounds, diamondSubmeshBounds, wedgeSubmeshBounds,
      torusSubmeshBounds, boxScan, gridScan, sphereScan, cylinderScan,
      pyramidScan, coneScan, prismScan, diamondScan, wedgeScan, torusScan,
      scanVertices, List.foldl_append]

/-- Position of a sub-mesh's indices inside a concatenated 16-bit index
buffer: the entry at (sum of earlier meshes' index counts) + `n` is mesh
`j`'s `n`-th index, narrowed to 16 bits. -/
theorem flatMap_indices_window (L : List MeshData) :
    ∀ (j : Nat) (hj : j < L.length) (n : Nat)
      (hn : n < (L.get ⟨j, hj⟩).Indices32.length),
      (L.flatMap MeshData.getIndices16)[(((L.take j).map
            fun d => d.Indices32.length).sum + n)]?
        = some ((L.get ⟨j, hj⟩).Indices32.get ⟨n, hn⟩ % 65536) := by
  induction L with
  | nil => intro j hj; exact absurd hj (by simp)
  | cons d L ih =>
      intro j hj n hn
      cases j with
      | zero =>
          simp only [List.take_zero, List.map_nil, List.sum_nil, Nat.zero_add,
            List.flatMap_cons]
          have hlen : n < d.getIndices16.length := by
            simpa [MeshData.getIndices16] using hn
          rw [List.getElem?_append_left hlen]
          simp [MeshData.getIndices16, List.getElem?_map,
            List.getElem?_eq_getElem (by simpa using hn)]
      | succ j =>
          simp only [List.take_succ_cons, List.map_cons, List.sum_cons,
            List.flatMap_cons]
          have hskip : d.getIndices16.length
              ≤ d.Indices32.length + ((((L.take j).map
                  fun d => d.Indices32.length).sum) + n) := by
            simp only [MeshData.getIndices16, List.length_map]
            omega
          rw [Nat.add_assoc, List.getElem?_append_right hskip]
          have hlen16 : d.getIndices16.length = d.Indices32.length := by
            simp [MeshData.getIndices16]
          rw [hlen16]
          have harith : d.Indices32.length + (((L.take j).map
                fun d => d.Indices32.length).sum + n) - d.Indices32.length
              = ((L.take j).map fun d => d.Indices32.length).sum + n := by
            omega
          rw [harith]
          exact ih j (by simpa using hj) n hn

theorem shapeGeometryIndices_eq_flatMap (m : ShapeMeshes) :
    shapeGeometryIndices m = (meshList m).flatMap MeshData.getIndices16 := by
  simp [shapeGeometryIndices, meshList]

theorem totalVertexCount_eq_sum (m : ShapeMeshes) :
    totalVertexCount m = ((meshList m).map fun d => d.Vertices.length).sum := by
  simp [totalVertexCount, meshList]
  omega

/-- C6: with the fixed concatenation order, every sub-mesh's
`BaseVertexLocation` is the sum of the vertex counts of all earlier meshes,
its `StartIndexLocation` is the sum of the index counts of all earlier
meshes, and — provided each mesh's indices address its own vertices and the
batch fits the 16-bit index range — each entry of the concatenated index
buffer, offset by its sub-mesh's base vertex, lands inside that sub-mesh's
own vertex range. -/
theorem shape_geometry_offsets (m : ShapeMeshes)
    (hwf : ∀ d ∈ meshList m, ∀ i ∈ d.Indices32, i < d.Vertices.length)
    (hsize : totalVertexCount m < 65536) :
    (boxVertexOffset m = vertexCountsBefore m 0
      ∧ gridVertexOffset m = vertexCountsBefore m 1
      ∧ sphereVertexOffset m = vertexCountsBefore m 2
      ∧ cylinderVertexOffset m = vertexCountsBefore m 3
      ∧ pyramidVertexOffset m = vertexCountsBefore m 4
      ∧ coneVertexOffset m = vertexCountsBefore m 5
      ∧ prismVertexOffset m = vertexCountsBefore m 6
      ∧ diamondVertexOffset m = vertexCountsBefore m 7
      ∧ wedgeVertexOffset m = vertexCountsBefore m 8
      ∧ torusVertexOffset m = vertexCountsBefore m 9)
    ∧ (boxIndexOffset m = indexCountsBefore m 0
      ∧ gridIndexOffset m = indexCountsBefore m 1
      ∧ sphereIndexOffset m = indexCountsBefore m 2
      ∧ cylinderIndexOffset m = indexCountsBefore m 3
      ∧ pyramidIndexOffset m = indexCountsBefore m 4
      ∧ coneIndexOffset m = indexCountsBefore m 5
      ∧ prismIndexOffset m = indexCountsBefore m 6
      ∧ diamondIndexOffset m = indexCountsBefore m 7
      ∧ wedgeIndexOffset m = indexCountsBefore m 8
      ∧ torusIndexOffset m = indexCountsBefore m 9)
    ∧ (∀ (j : Fin 10) (n : Nat) (hn : n < (meshAt m j).Indices32.length),
        ∃ v, (shapeGeometryIndices m)[indexCountsBefore m j.val + n]? = some v
          ∧ vertexCountsBefore m j.val ≤ vertexCountsBefore m j.val + v
          ∧ vertexCountsBefore m j.val + v
              < vertexCountsBefore m j.val + (meshAt m j).Vertices.length) := by
  refine ⟨?_, ?_, ?_⟩
  · refine ⟨rfl, ?_, ?_, ?_, ?_, ?_, ?_, ?_, ?_, ?_⟩ <;>
      simp [vertexCountsBefore, meshList, boxVertexOffset, gridVertexOffset,
        sphereVertexOffset, cylinderVertexOffset, pyramidVertexOffset,
        coneVertexOffset, prismVertexOffset, diamondVertexOffset,
        wedgeVertexOffset, torusVertexOffset] <;> omega
  · refine ⟨rfl, ?_, ?_, ?_, ?_, ?_, ?_, ?_, ?_, ?_⟩ <;>
      simp [indexCountsBefore, meshList, boxIndexOffset, gridIndexOffset,
        sphereIndexOffset, cylinderIndexOffset, pyramidIndexOffset,
        coneIndexOffset, prismIndexOffset, diamondIndexOffset,
        wedgeIndexOffset, torusIndexOffset] <;> omega
  · intro j n hn
    have hj10 : j.val < (meshList m).length := by
      simpa [meshList] using j.isLt
    have hget : (meshList m).get ⟨j.val, hj10⟩ = meshAt m j := rfl
    have hwin := flatMap_indices_window (meshList m) j.val hj10 n (by rw [hget]; exact hn)
    have hidxmem : (meshAt m j).Indices32.get ⟨n, hn⟩ ∈ (meshAt m j).Indices32 :=
      List.get_mem _ _ _
    have hmesh : meshAt m j ∈ meshList m := by
      rw [← hget]; exact List.get_mem _ _ _
    have hlt : (meshAt m j).Indices32.get ⟨n, hn⟩ < (meshAt m j).Vertices.length :=
      hwf _ hmesh _ hidxmem
    have hle_total : (meshAt m j).Vertices.length ≤ totalVertexCount m := by
      rw [totalVertexCount_eq_sum]
      exact List.single_le_sum (fun y _ => Nat.zero_le y) _
        (List.mem_map_of_mem _ hmesh)
    have hsmall : (meshAt m j).Indices32.get ⟨n, hn⟩ < 65536 := by omega
    refine ⟨(meshAt m j).Indices32.get ⟨n, hn⟩, ?_, Nat.le_add_right _ _, by omega⟩
    rw [shapeGeometryIndices_eq_flatMap, indexCountsBefore]
    rw [hwin]
    congr 1
    exact Nat.mod_eq_of_lt hsmall

theorem shape_geometry_offsets_witness :
    gridVertexOffset tinyMeshes = vertexCountsBefore tinyMeshes 1
      ∧ (∀ (j : Fin 10) (n : Nat) (hn : n < (meshAt tinyMeshes j).Indices32.length),
          ∃ v, (shapeGeometryIndices tinyMeshes)[indexCountsBefore tinyMeshes j.val + n]?
              = some v
            ∧ vertexCountsBefore tinyMeshes j.val
                ≤ vertexCountsBefore tinyMeshes j.val + v
            ∧ vertexCountsBefore tinyMeshes j.val + v
                < vertexCountsBefore tinyMeshes j.val
                    + (meshAt tinyMeshes j).Vertices.length) :=
  ⟨(shape_geometry_offsets tinyMeshes (by decide) (by decide)).1.2.1,
   (shape_geometry_offsets tinyMeshes (by decide) (by decide)).2.2⟩

/-- C9 counterexample: `BuildShapeGeometry` also builds a 16-bit index
buffer, yet it performs no assertion on the vertex count: a batch with
65537 vertices is accepted and its 32-bit index 65536 is silently narrowed
to 0 in the concatenated index buffer. -/
theorem shape_batch_silently_truncates :
    65536 ≤ totalVertexCount oversizedMeshes
      ∧ (shapeGeometryIndices oversizedMeshes).head? = some 0
      ∧ oversizedMeshes.box.Indices32.head? = some 65536 := by
  refine ⟨?_, rfl, rfl⟩
  have hgeneric : ∀ m : ShapeMeshes, m.box.Vertices.length ≤ totalVertexCount m := by
    intro m
    simp only [totalVertexCount]
    omega
  have hlow := hgeneric oversizedMeshes
  have hproj : oversizedMeshes.box = hugeBoxMesh := rfl
  have hbig : hugeBoxMesh.Vertices.length = 65537 := by
    simp only [hugeBoxMesh, List.length_replicate]
  rw [hproj, hbig] at hlow
  exact Nat.le_trans (by norm_num) hlow

/-- C9 amended: only the waves batch guards its 16-bit index buffer — its
construction succeeds exactly when `VertexCount() < 0xffff` — while the
shape batch always produces a full-length (silently narrowed) index buffer
with no check. -/
theorem waves_index_guard :
    (∀ mRows nCols : Nat,
        (buildWavesGeometryIndices mRows nCols).isSome = true
          ↔ wavesVertexCount mRows nCols < 65535)
      ∧ (∀ ms : ShapeMeshes,
          (shapeGeometryIndices ms).length
            = ((meshList ms).map fun d => d.Indices32.length).sum) := by
  constructor
  · intro mRows nCols
    by_cases h : wavesVertexCount mRows nCols < 65535 <;>
      simp [buildWavesGeometryIndices, h]
  · intro ms
    simp [shapeGeometryIndices, meshList, MeshData.getIndices16]

/-- Enumeration `enum class RenderLayer` (lines 65–72). -/
inductive Layer where
  | Opaque
  | Transparent
  | AlphaTested
  | AlphaTestedTreeSprites
deriving DecidableEq

/-- A render item as constructed by `BuildRenderItems`, reduced to the two
fields the registry claims are about: its `ObjCBIndex` and the
`mRitemLayer` it is pushed into. -/
structure BuiltItem where
  ObjCBIndex : Nat
  layer : Layer
deriving DecidableEq

/-- The 33 individually constructed items of `BuildRenderItems`
(lines 1941–2573), in `mAllRitems` push order with their literal
`ObjCBIndex` assignments and layers: grid(0,Opaque), the six castle-wall
boxes(1–6), pyramid(7), two tower cylinders(8,9), cone(10), four
diamonds(11–14,Opaque), then the six corner prism(AlphaTested)/
sphere(Opaque) pairs(15–26), two front-wall boxes(27,28), two rope
cylinders(29,30), torus(31), diamond(32,Opaque). -/
def explicitItems : List BuiltItem :=
  [⟨0, Layer.Opaque⟩,
   ⟨1, Layer.AlphaTested⟩, ⟨2, Layer.AlphaTested⟩, ⟨3, Layer.AlphaTested⟩,
   ⟨4, Layer.AlphaTested⟩, ⟨5, Layer.AlphaTested⟩, ⟨6, Layer.AlphaTested⟩,
   ⟨7, Layer.AlphaTested⟩, ⟨8, Layer.AlphaTested⟩, ⟨9, Layer.AlphaTested⟩,
   ⟨10, Layer.AlphaTested⟩,
   ⟨11, Layer.Opaque⟩, ⟨12, Layer.Opaque⟩, ⟨13, Layer.Opaque⟩, ⟨14, Layer.Opaque⟩,
   ⟨15, Layer.AlphaTested⟩, ⟨16, Layer.Opaque⟩,
   ⟨17, Layer.AlphaTested⟩, ⟨18, Layer.Opaque⟩,
   ⟨19, Layer.AlphaTested⟩, ⟨20, Layer.Opaque⟩,
   ⟨21, Layer.AlphaTested⟩, ⟨22, Layer.Opaque⟩,
   ⟨23, Layer.AlphaTested⟩, ⟨24, Layer.Opaque⟩,
   ⟨25, Layer.AlphaTested⟩, ⟨26, Layer.Opaque⟩,
   ⟨27, Layer.AlphaTested⟩, ⟨28, Layer.AlphaTested⟩,
   ⟨29, Layer.AlphaTested⟩, ⟨30, Layer.AlphaTested⟩,
   ⟨31, Layer.AlphaTested⟩, ⟨32, Layer.Opaque⟩]

/-- One castle-top small-box row (lines 2576–2701): the loop
`for (float i = -6.0f; i <= 6.0f; i += 2.0f)` runs 7 iterations, assigning
`ObjCBIndex = objCBIndex++` from the given start value; every item goes to
the alpha-tested layer.  The six rows start at the literal counter values
33, 40, 41, 48, 55 and 62. -/
def smallBoxRow (start : Nat) : List BuiltItem :=
  (List.range 7).map fun k => ⟨start + k, Layer.AlphaTested⟩

/-- The tile-map pass of `BuildRenderItems` (lines 2818–2831) together with
`TileMapDrawing` (lines 2868–2898): for each tile code in scan order, the
counter is pre-incremented when the code is not `'0'`, and a wall item with
the resulting index is created (into the alpha-tested layer) when the code
is `'1'`; any other code creates no item (the `switch` has no other case). -/
def tileItems (codes : List Char) (idx : Nat) : List BuiltItem :=
  match codes with
  | [] => []
  | c :: rest =>
      let idx2 := if c ≠ '0' then idx + 1 else idx
      (if c = '1' then [⟨idx2, Layer.AlphaTested⟩] else []) ++ tileItems rest idx2

/-- The fixed (tile-map independent) part of `mAllRitems` in push order
(lines 1941–2815).  After the six small-box rows the counter stands at 69;
the subsequent `++objCBIndex` steps give the waves item 70 (Transparent),
the tree-sprite item 71, the second roof cone 72, the four outer wall boxes
73–76 and the door 77 — the waves and tree-sprite items are pushed into
`mAllRitems` after the small-box rows (positions 75 and 76), before the
cone, the wall boxes and the door. -/
def fixedRitems : List BuiltItem :=
  explicitItems
    ++ smallBoxRow 33 ++ smallBoxRow 40 ++ smallBoxRow 41
    ++ smallBoxRow 48 ++ smallBoxRow 55 ++ smallBoxRow 62
    ++ [⟨70, Layer.Transparent⟩, ⟨71, Layer.AlphaTestedTreeSprites⟩,
        ⟨72, Layer.AlphaTested⟩,
        ⟨73, Layer.AlphaTested⟩, ⟨74, Layer.AlphaTested⟩,
        ⟨75, Layer.AlphaTested⟩, ⟨76, Layer.AlphaTested⟩,
        ⟨77, Layer.AlphaTested⟩]

/-- State of `mAllRitems` after `BuildRenderItems`, parametrized by the tile codes
read from `map.txt` in scan order (the tile pass starts with the counter at
77, the door's index). -/
def mAllRitems (codes : List Char) : List BuiltItem :=
  fixedRitems ++ tileItems codes 77

/-- C4 (code evaluation at the failing input): the second small-box row
starts the counter at 40 (indices 40–46) but the third row restarts it at
41 (indices 41–47), so the distinct items at `mAllRitems` positions 41 and
47 both carry `ObjCBIndex = 41` — the slot is reused. -/
theorem objCBIndex_reused :
    ((mAllRitems [])[41]?).map BuiltItem.ObjCBIndex = some 41
      ∧ ((mAllRitems [])[47]?).map BuiltItem.ObjCBIndex = some 41
      ∧ (41 : Nat) ≠ 47 := by decide

theorem tileItems_index_le (codes : List Char) :
    ∀ (k : Nat), (∀ c ∈ codes, c = '0' ∨ c = '1') →
      ∀ e ∈ tileItems codes k, e.ObjCBIndex ≤ k + (tileItems codes k).length := by
  induction codes with
  | nil => intro k _ e he; simp [tileItems] at he
  | cons c rest ih =>
      intro k hcs e he
      rcases hcs c (List.mem_cons_self c rest) with hc | hc
      · subst hc
        have hred : tileItems ('0' :: rest) k = tileItems rest k := rfl
        rw [hred] at he ⊢
        exact ih k (fun d hd => hcs d (List.mem_cons_of_mem _ hd)) e he
      · subst hc
        have hred : tileItems ('1' :: rest) k
            = ⟨k + 1, Layer.AlphaTested⟩ :: tileItems rest (k + 1) := rfl
        rw [hred] at he ⊢
        rcases List.mem_cons.mp he with he1 | he1
        · subst he1
          simp only [List.length_cons]
          omega
        · have := ih (k + 1) (fun d hd => hcs d (List.mem_cons_of_mem _ hd)) e he1
          simp only [List.length_cons]
          omega

/-- C10: provided every tile code is `'0'` or `'1'` (the scene-layout
format of the spec), every render item built by `BuildRenderItems` has
`ObjCBIndex < mAllRitems.size()` — the object-constant upload-buffer
capacity handed to each `FrameResource` by `BuildFrameResources`
(lines 1813–1820) — so every `CopyData` offset and constant-buffer address
derived from an `ObjCBIndex` stays in bounds. -/
theorem objCBIndex_lt_capacity (codes : List Char)
    (h01 : ∀ c ∈ codes, c = '0' ∨ c = '1') :
    ∀ e ∈ mAllRitems codes, e.ObjCBIndex < (mAllRitems codes).length := by
  intro e he
  have hfixedlen : fixedRitems.length = 83 := by decide
  have hlen : (mAllRitems codes).length = 83 + (tileItems codes 77).length := by
    simp [mAllRitems, hfixedlen]
  rcases List.mem_append.mp he with hf | ht
  · have hall : ∀ x ∈ fixedRitems, x.ObjCBIndex ≤ 77 := by decide
    have := hall e hf
    omega
  · have := tileItems_index_le codes 77 h01 e ht
    omega

theorem objCBIndex_lt_capacity_witness :
    (∀ c ∈ (['1', '0', '1'] : List Char), c = '0' ∨ c = '1')
      ∧ (∀ e ∈ mAllRitems ['1', '0', '1'],
          e.ObjCBIndex < (mAllRitems ['1', '0', '1']).length) :=
  ⟨by decide, objCBIndex_lt_capacity ['1', '0', '1'] (by decide)⟩

/-- State of `mRitemLayer[l]` after `BuildRenderItems`: the source pushes each item
into its layer at construction time, in the same relative order as the
`mAllRitems` insertions, so the per-layer list is the layer-filtered
construction sequence. -/
def layerItems (codes : List Char) (l : Layer) : List BuiltItem :=
  (mAllRitems codes).filter fun e => decide (e.layer = l)

/-- The per-frame draw sequence of `CastleDesign::Draw` (lines 335–344):
`DrawRenderItems` over the opaque layer, then (after the respective
`SetPipelineState` calls) the alpha-tested layer, the tree-sprite layer and
finally the transparent layer; `DrawRenderItems` (lines 2836–2866) issues
one draw per item in list order. -/
def drawSequence (codes : List Char) : List BuiltItem :=
  layerItems codes Layer.Opaque ++ layerItems codes Layer.AlphaTested
    ++ layerItems codes Layer.AlphaTestedTreeSprites
    ++ layerItems codes Layer.Transparent

/-- C7: `Draw` issues the render-item layers in the fixed order opaque,
alpha-tested, tree-sprite, transparent; every item of a layer list carries
that layer, and every opaque-layer draw precedes every transparent-layer
draw, whatever the tile codes (i.e. however many wall items were inserted). -/
theorem draw_layer_order (codes : List Char) :
    (∀ l : Layer, ∀ e ∈ layerItems codes l, e.layer = l)
      ∧ (∀ (p q : Nat) (hp : p < (drawSequence codes).length)
          (hq : q < (drawSequence codes).length),
          ((drawSequence codes).get ⟨p, hp⟩).layer = Layer.Opaque →
          ((drawSequence codes).get ⟨q, hq⟩).layer = Layer.Transparent →
          p < q) := by
  have hmemlayer : ∀ l : Layer, ∀ e ∈ layerItems codes l, e.layer = l := by
    intro l e he
    have h := (List.mem_filter.mp he).2
    simpa using h
  refine ⟨hmemlayer, ?_⟩
  intro p q hp hq hP hQ
  have hgetp : (drawSequence codes)[p]? = some ((drawSequence codes).get ⟨p, hp⟩) :=
    List.getElem?_eq_getElem hp
  have hgetq : (drawSequence codes)[q]? = some ((drawSequence codes).get ⟨q, hq⟩) :=
    List.getElem?_eq_getElem hq
  have hassoc : drawSequence codes
      = layerItems codes Layer.Opaque
          ++ (layerItems codes Layer.AlphaTested
              ++ (layerItems codes Layer.AlphaTestedTreeSprites
                  ++ layerItems codes Layer.Transparent)) := by
    simp [drawSequence, List.append_assoc]
  have hplt : p < (layerItems codes Layer.Opaque).length := by
    by_contra hple
    push_neg at hple
    have hrest : (drawSequence codes)[p]?
        = (layerItems codes Layer.AlphaTested
            ++ (layerItems codes Layer.AlphaTestedTreeSprites
                ++ layerItems codes Layer.Transparent))[p
                  - (layerItems codes Layer.Opaque).length]? := by
      rw [hassoc]
      exact List.getElem?_append_right hple
    have hsome : (layerItems codes Layer.AlphaTested
        ++ (layerItems codes Layer.AlphaTestedTreeSprites
            ++ layerItems codes Layer.Transparent))[p
              - (layerItems codes Layer.Opaque).length]?
        = some ((drawSequence codes).get ⟨p, hp⟩) := by
      rw [← hrest]; exact hgetp
    have hm : (drawSequence codes).get ⟨p, hp⟩
        ∈ layerItems codes Layer.AlphaTested
            ++ (layerItems codes Layer.AlphaTestedTreeSprites
                ++ layerItems codes Layer.Transparent) :=
      List.getElem?_mem hsome
    rcases List.mem_append.mp hm with hm1 | hm2
    · have := hmemlayer _ _ hm1
      rw [hP] at this
      exact absurd this (by decide)
    · rcases List.mem_append.mp hm2 with hm3 | hm4
      · have := hmemlayer _ _ hm3
        rw [hP] at this
        exact absurd this (by decide)
      · have := hmemlayer _ _ hm4
        rw [hP] at this
        exact absurd this (by decide)
  have hqge : (layerItems codes Layer.Opaque).length
      + (layerItems codes Layer.AlphaTested).length
      + (layerItems codes Layer.AlphaTestedTreeSprites).length ≤ q := by
    by_contra hqlt
    push_neg at hqlt
    have hlen3 : q < (layerItems codes Layer.Opaque
        ++ layerItems codes Layer.AlphaTested
        ++ layerItems codes Layer.AlphaTestedTreeSprites).length := by
      simp only [List.length_append]
      omega
    have hleft : (drawSequence codes)[q]?
        = (layerItems codes Layer.Opaque ++ layerItems codes Layer.AlphaTested
            ++ layerItems codes Layer.AlphaTestedTreeSprites)[q]? := by
      show (layerItems codes Layer.Opaque ++ layerItems codes Layer.AlphaTested
          ++ layerItems codes Layer.AlphaTestedTreeSprites
          ++ layerItems codes Layer.Transparent)[q]? = _
      exact List.getElem?_append_left hlen3
    have hsome : (layerItems codes Layer.Opaque ++ layerItems codes Layer.AlphaTested
        ++ layerItems codes Layer.AlphaTestedTreeSprites)[q]?
        = some ((drawSequence codes).get ⟨q, hq⟩) := by
      rw [← hleft]; exact hgetq
    have hm : (drawSequence codes).get ⟨q, hq⟩
        ∈ layerItems codes Layer.Opaque ++ layerItems codes Layer.AlphaTested
            ++ layerItems codes Layer.AlphaTestedTreeSprites :=
      List.getElem?_mem hsome
    rcases List.mem_append.mp hm with hm1 | hm4
    · rcases List.mem_append.mp hm1 with hm2 | hm3
      · have := hmemlayer _ _ hm2
        rw [hQ] at this
        exact absurd this (by decide)
      · have := hmemlayer _ _ hm3
        rw [hQ] at this
        exact absurd this (by decide)
    · have := hmemlayer _ _ hm4
      rw [hQ] at this
      exact absurd this (by decide)
  omega

theorem draw_layer_order_witness :
    ((drawSequence []).get ⟨0, by decide⟩).layer = Layer.Opaque
      ∧ ((drawSequence []).get ⟨82, by decide⟩).layer = Layer.Transparent
      ∧ (0 : Nat) < 82 :=
  ⟨by decide, by decide,
   (draw_layer_order []).2 0 82 (by decide) (by decide) (by decide) (by decide)⟩

/-- The camera state read by `CollisionDetection`: `GetPosition3f()`,
`GetLook3f()` and `GetRight3f()`. -/
structure CameraState where
  pos : V3
  look : V3
  right : V3

def vadd (a b : V3) : V3 := ⟨a.x + b.x, a.y + b.y, a.z + b.z⟩

def smul (d : ℚ) (a : V3) : V3 := ⟨d * a.x, d * a.y, d * a.z⟩

/-- The projected next camera position `temp` (lines 440–467):
`XMVectorMultiplyAdd(XMVectorReplicate(d), dir, pos)` with the look
direction for `'W'`/`'S'` and the right direction for `'A'`/`'D'`.  The C++
`switch` has no default case and `CollisionDetection` is only invoked with
these four keys (`OnKeyboardInput`, lines 411–421); the fallback branch is
unreachable and modelled as the unchanged position. -/
def nextCamPos (cam : CameraState) (key : Char) (d : ℚ) : V3 :=
  match key with
  | 'W' => vadd (smul d cam.look) cam.pos
  | 'S' => vadd (smul d cam.look) cam.pos
  | 'A' => vadd (smul d cam.right) cam.pos
  | 'D' => vadd (smul d cam.right) cam.pos
  | _ => cam.pos

/-- Function `BoundingBox::CreateFromPoints(out, p, q)` (DirectXMath, external
library): the axis-aligned box spanning the min/max corners of the two
points. -/
def boxFromPoints (p q : V3) : BoundingBox :=
  { Center := ⟨(min p.x q.x + max p.x q.x) / 2, (min p.y q.y + max p.y q.y) / 2,
               (min p.z q.z + max p.z q.z) / 2⟩
    Extents := ⟨(max p.x q.x - min p.x q.x) / 2, (max p.y q.y - min p.y q.y) / 2,
                (max p.z q.z - min p.z q.z) / 2⟩ }

/-- The probe corners of lines 470–472: `rt = temp + (1.5, 1.5, 1.0)`,
`ld = temp + (-1.5, -1.5, -0.5)` and `BoundingBox::CreateFromPoints(mCamBound,
rt, ld)`. -/
def probeBox (temp : V3) : BoundingBox :=
  boxFromPoints ⟨temp.x + 3/2, temp.y + 3/2, temp.z + 1⟩
    ⟨temp.x - 3/2, temp.y - 3/2, temp.z - 1/2⟩

/-- Two axis-aligned boxes are disjoint when they are strictly separated
along some axis; `DirectX::BoundingBox::Contains` (external library) returns
`DISJOINT` exactly in that case, and `INTERSECTS`/`CONTAINS` otherwise. -/
def BoxDisjoint (a b : BoundingBox) : Prop :=
  a.Extents.x + b.Extents.x < |a.Center.x - b.Center.x|
    ∨ a.Extents.y + b.Extents.y < |a.Center.y - b.Center.y|
    ∨ a.Extents.z + b.Extents.z < |a.Center.z - b.Center.z|

instance (a b : BoundingBox) : Decidable (BoxDisjoint a b) := by
  unfold BoxDisjoint
  infer_instance

/-- The per-item test of line 473, `mCamBound.Contains(e->Bounds) !=
DirectX::DISJOINT`: axis overlap on all three axes. -/
def containsNotDisjoint (a b : BoundingBox) : Bool :=
  decide (|a.Center.x - b.Center.x| ≤ a.Extents.x + b.Extents.x)
    && decide (|a.Center.y - b.Center.y| ≤ a.Extents.y + b.Extents.y)
    && decide (|a.Center.z - b.Center.z| ≤ a.Extents.z + b.Extents.z)

/-- Function `CastleDesign::CollisionDetection` (lines 432–479): compute the
projected position for the movement key, build the probe box around it and
return `true` as soon as some registered render item's bounding box is
non-disjoint from the probe (the loop over `mAllRitems` returns on the
first hit). -/
def collisionDetection (cam : CameraState) (key : Char) (d : ℚ)
    (items : List BoundingBox) : Bool :=
  items.any fun b => containsNotDisjoint (probeBox (nextCamPos cam key d)) b

/-- C8: for every movement key in {'W','S','A','D'}, `CollisionDetection`
vetoes the move exactly when the axis-aligned probe box around the
projected next camera position is non-disjoint from at least one registered
item's bounding box. -/
theorem collision_veto_iff (cam : CameraState) (d : ℚ) (items : List BoundingBox)
    (key : Char) (hkey : key ∈ (['W', 'S', 'A', 'D'] : List Char)) :
    (collisionDetection cam key d items = true
      ↔ ∃ b ∈ items, ¬ BoxDisjoint (probeBox (nextCamPos cam key d)) b) := by
  unfold collisionDetection
  rw [List.any_eq_true]
  constructor
  · rintro ⟨b, hb, htest⟩
    refine ⟨b, hb, ?_⟩
    simp only [containsNotDisjoint, Bool.and_eq_true, decide_eq_true_eq] at htest
    unfold BoxDisjoint
    push_neg
    exact ⟨htest.1.1, htest.1.2, htest.2⟩
  · rintro ⟨b, hb, hnd⟩
    refine ⟨b, hb, ?_⟩
    unfold BoxDisjoint at hnd
    push_neg at hnd
    simp only [containsNotDisjoint, Bool.and_eq_true, decide_eq_true_eq]
    exact ⟨⟨hnd.1, hnd.2.1⟩, hnd.2.2⟩

/-- A camera at the origin looking down +z. -/
def camOrigin : CameraState := ⟨⟨0, 0, 0⟩, ⟨0, 0, 1⟩, ⟨1, 0, 0⟩⟩

/-- The spec test's item bounding box `[-1,1]^3`. -/
def unitItemBox : BoundingBox := ⟨⟨0, 0, 0⟩, ⟨1, 1, 1⟩⟩

theorem collision_veto_iff_witness :
    collisionDetection camOrigin 'W' 0 [unitItemBox] = true :=
  (collision_veto_iff camOrigin 0 [unitItemBox] 'W' (by decide)).mpr
    ⟨unitItemBox, List.mem_singleton.mpr rfl,
     by norm_num [BoxDisjoint, probeBox, boxFromPoints, nextCamPos, camOrigin,
       unitItemBox, vadd, smul, min_def, max_def, abs_eq_max_neg]⟩

end CastleProof
